import Mathlib

/-
  Verification of the Layer Transform & Compositing Engine of a layer-based
  2D image compositor (LayerForge).  The definitions below are a shallow
  embedding of the engine source into Lean: JS numbers are modelled by the
  rationals (the algorithms under study use only field operations and
  comparisons), raster objects are modelled by opaque natural-number tokens,
  and trigonometric values cos/sin of a layer rotation are passed explicitly
  as rational parameters (the embedded geometry is uniform in them).
-/

namespace LayerForge

/-- A 2D point in world space. -/
structure Point where
  x : ℚ
  y : ℚ
  deriving DecidableEq, Repr

/-- A rectangle, used for crop bounds in original-image space. -/
structure Rect where
  x : ℚ
  y : ℚ
  width : ℚ
  height : ℚ
  deriving DecidableEq, Repr

/-- A layer record, embedding the serializable fields of the source Layer
type.  The decoded raster resource is modelled by the opaque token `image`
(object identity); `imageId` is dropped as it never influences the claims. -/
structure Layer where
  id : ℕ
  image : ℕ
  x : ℚ
  y : ℚ
  width : ℚ
  height : ℚ
  originalWidth : ℚ
  originalHeight : ℚ
  rotation : ℚ
  flipH : Bool
  flipV : Bool
  zIndex : ℤ
  blendMode : ℕ
  opacity : ℚ
  visible : Bool
  cropMode : Bool
  cropBounds : Option Rect
  blendArea : ℚ
  deriving DecidableEq, Repr

/-- The eight resize handles of a layer. -/
inductive Handle where
  | n | ne | e | se | s | sw | w | nw
  deriving DecidableEq, Repr

/-- JS `handle.includes(e)` for the string handle names. -/
def Handle.hasE : Handle → Bool
  | .e | .ne | .se => true
  | _ => false

/-- JS `handle.includes(w)` for the string handle names. -/
def Handle.hasW : Handle → Bool
  | .w | .nw | .sw => true
  | _ => false

/-- JS `handle.includes(n)` for the string handle names. -/
def Handle.hasN : Handle → Bool
  | .n | .ne | .nw => true
  | _ => false

/-- JS `handle.includes(s)` for the string handle names. -/
def Handle.hasS : Handle → Bool
  | .s | .se | .sw => true
  | _ => false

/-- The `oppositeHandleKey` table of `startLayerTransform`. -/
def oppositeHandle : Handle → Handle
  | .n => .s
  | .s => .n
  | .e => .w
  | .w => .e
  | .nw => .se
  | .se => .nw
  | .ne => .sw
  | .sw => .ne

/-- The pre-transform geometry snapshot captured by `startLayerTransform`
(the `transformOrigin` interaction record). -/
structure TransformOrigin where
  x : ℚ
  y : ℚ
  width : ℚ
  height : ℚ
  rotation : ℚ
  centerX : ℚ
  centerY : ℚ
  originalWidth : ℚ
  originalHeight : ℚ
  cropBounds : Option Rect
  deriving DecidableEq, Repr

/-- Embedding of the `transformOrigin` construction in
`startLayerTransform` (CanvasInteractions.js lines 693-702). -/
def mkTransformOrigin (layer : Layer) : TransformOrigin :=
  { x := layer.x
    y := layer.y
    width := layer.width
    height := layer.height
    rotation := layer.rotation
    centerX := layer.x + layer.width / 2
    centerY := layer.y + layer.height / 2
    originalWidth := layer.originalWidth
    originalHeight := layer.originalHeight
    cropBounds := layer.cropBounds }

/-- The nine handle positions returned by `CanvasLayers.getHandles`. -/
structure Handles where
  n : Point
  ne : Point
  e : Point
  se : Point
  s : Point
  sw : Point
  w : Point
  nw : Point
  rot : Point
  deriving DecidableEq, Repr

/-- Embedding of `CanvasLayers.getHandles`.  The cos and sin of the layer
rotation are the parameters `c` and `sn`; `zoom` is the viewport zoom
(only the rotation handle offset depends on it).  The crop-mode branch is
taken when `cropMode` is set, `cropBounds` is present and `originalWidth`
is nonzero (JS truthiness of `layer.originalWidth`). -/
def getHandles (layer : Layer) (c sn zoom : ℚ) : Handles :=
  let layerCenterX := layer.x + layer.width / 2
  let layerCenterY := layer.y + layer.height / 2
  let core : ℚ × ℚ × ℚ × ℚ :=
    match layer.cropBounds with
    | some cb =>
      if layer.cropMode ∧ ¬(layer.originalWidth = 0) then
        let layerScaleX := layer.width / layer.originalWidth
        let layerScaleY := layer.height / layer.originalHeight
        let cropRectW := cb.width * layerScaleX
        let cropRectH := cb.height * layerScaleY
        let effectiveCropX :=
          if layer.flipH then layer.originalWidth - (cb.x + cb.width) else cb.x
        let effectiveCropY :=
          if layer.flipV then layer.originalHeight - (cb.y + cb.height) else cb.y
        let cropCenterXlocal := -layer.width / 2 + (effectiveCropX + cb.width / 2) * layerScaleX
        let cropCenterYlocal := -layer.height / 2 + (effectiveCropY + cb.height / 2) * layerScaleY
        (layerCenterX + (cropCenterXlocal * c - cropCenterYlocal * sn),
         layerCenterY + (cropCenterXlocal * sn + cropCenterYlocal * c),
         cropRectW / 2, cropRectH / 2)
      else
        (layerCenterX, layerCenterY, layer.width / 2, layer.height / 2)
    | none => (layerCenterX, layerCenterY, layer.width / 2, layer.height / 2)
  let hcx := core.1
  let hcy := core.2.1
  let halfW := core.2.2.1
  let halfH := core.2.2.2
  let toWorld : Point → Point := fun p =>
    { x := hcx + (p.x * c - p.y * sn), y := hcy + (p.x * sn + p.y * c) }
  { n := toWorld { x := 0, y := -halfH }
    ne := toWorld { x := halfW, y := -halfH }
    e := toWorld { x := halfW, y := 0 }
    se := toWorld { x := halfW, y := halfH }
    s := toWorld { x := 0, y := halfH }
    sw := toWorld { x := -halfW, y := halfH }
    w := toWorld { x := -halfW, y := 0 }
    nw := toWorld { x := -halfW, y := -halfH }
    rot := toWorld { x := 0, y := -halfH - 20 / zoom } }

/-- Look up one of the eight resize handles in a `Handles` record. -/
def handlePoint (hs : Handles) : Handle → Point
  | .n => hs.n
  | .ne => hs.ne
  | .e => hs.e
  | .se => hs.se
  | .s => hs.s
  | .sw => hs.sw
  | .w => hs.w
  | .nw => hs.nw

/-- The resize anchor chosen by `startLayerTransform`: the world position of
the handle opposite to the grabbed one, at drag start. -/
def startResizeAnchor (layer : Layer) (handle : Handle) (c sn zoom : ℚ) : Point :=
  handlePoint (getHandles layer c sn zoom) (oppositeHandle handle)

/-- Crop-mode branch of `resizeLayerFromHandle` (CanvasInteractions.js lines
880-963): accumulate the rotated, flip-corrected mouse delta since drag
start, convert it to original-image space, apply it to the crop edges
selected by the handle (flips swap which image edge a handle moves), then
run the clamping sequence of the source in order. -/
def resizeCropBranch (layer : Layer) (o : TransformOrigin) (cb : Rect)
    (handle : Handle) (dragStart mouse : Point) (c sn : ℚ) : Layer :=
  let dragStartXlocal := dragStart.x - o.centerX
  let dragStartYlocal := dragStart.y - o.centerY
  let mouseXlocal := mouse.x - o.centerX
  let mouseYlocal := mouse.y - o.centerY
  let deltaXworld := mouseXlocal - dragStartXlocal
  let deltaYworld := mouseYlocal - dragStartYlocal
  let mdx := deltaXworld * c + deltaYworld * sn
  let mdy := deltaYworld * c - deltaXworld * sn
  let mouseDeltaXlocal := if layer.flipH then -mdx else mdx
  let mouseDeltaYlocal := if layer.flipV then -mdy else mdy
  let screenToImageScaleX := o.originalWidth / o.width
  let screenToImageScaleY := o.originalHeight / o.height
  let dix := mouseDeltaXlocal * screenToImageScaleX
  let diy := mouseDeltaYlocal * screenToImageScaleY
  let b1 :=
    if handle.hasW then
      if layer.flipH then { cb with width := cb.width + dix }
      else { cb with x := cb.x + dix, width := cb.width - dix }
    else cb
  let b2 :=
    if handle.hasE then
      if layer.flipH then { b1 with x := b1.x + dix, width := b1.width - dix }
      else { b1 with width := b1.width + dix }
    else b1
  let b3 :=
    if handle.hasN then
      if layer.flipV then { b2 with height := b2.height + diy }
      else { b2 with y := b2.y + diy, height := b2.height - diy }
    else b2
  let b4 :=
    if handle.hasS then
      if layer.flipV then { b3 with y := b3.y + diy, height := b3.height - diy }
      else { b3 with height := b3.height + diy }
    else b3
  let b5 :=
    if b4.width < 1 then
      { b4 with x := if handle.hasW then cb.x + cb.width - 1 else b4.x, width := 1 }
    else b4
  let b6 :=
    if b5.height < 1 then
      { b5 with y := if handle.hasN then cb.y + cb.height - 1 else b5.y, height := 1 }
    else b5
  let b7 := if b6.x < 0 then { b6 with width := b6.width + b6.x, x := 0 } else b6
  let b8 := if b7.y < 0 then { b7 with height := b7.height + b7.y, y := 0 } else b7
  let b9 :=
    if b8.x + b8.width > o.originalWidth then { b8 with width := o.originalWidth - b8.x } else b8
  let b10 :=
    if b9.y + b9.height > o.originalHeight then { b9 with height := o.originalHeight - b9.y } else b9
  { layer with cropBounds := some b10 }

/-- JS `Math.sign q || 1` as used by the aspect-lock recomputation. -/
def signOrOne (q : ℚ) : ℚ :=
  if q > 0 then 1 else if q < 0 then -1 else 1

/-- Transform-mode branch of `resizeLayerFromHandle` (CanvasInteractions.js
lines 966-995): anchor-preserving resize of the transform frame. -/
def resizeTransformBranch (layer : Layer) (o : TransformOrigin) (handle : Handle)
    (anchor mouse : Point) (c sn : ℚ) (isShiftPressed : Bool) : Layer :=
  let vecX := mouse.x - anchor.x
  let vecY := mouse.y - anchor.y
  let localVecX := vecX * c + vecY * sn
  let localVecY := vecY * c - vecX * sn
  let signX : ℚ := if handle.hasE then 1 else if handle.hasW then -1 else 0
  let signY : ℚ := if handle.hasS then 1 else if handle.hasN then -1 else 0
  let lvx := if signX = 0 then o.width else localVecX * signX
  let lvy := if signY = 0 then o.height else localVecY * signY
  let wh : ℚ × ℚ :=
    if isShiftPressed then
      let aspect := o.width / o.height
      if |lvx| > |lvy| * aspect then (lvx, signOrOne lvy * |lvx| / aspect)
      else (signOrOne lvx * |lvy| * aspect, lvy)
    else (lvx, lvy)
  let newWidth := if wh.1 < 10 then 10 else wh.1
  let newHeight := if wh.2 < 10 then 10 else wh.2
  let deltaW := newWidth - o.width
  let deltaH := newHeight - o.height
  let shiftX := deltaW / 2 * signX
  let shiftY := deltaH / 2 * signY
  let worldShiftX := shiftX * c - shiftY * sn
  let worldShiftY := shiftX * sn + shiftY * c
  let newCenterX := o.centerX + worldShiftX
  let newCenterY := o.centerY + worldShiftY
  { layer with
      width := newWidth
      height := newHeight
      x := newCenterX - newWidth / 2
      y := newCenterY - newHeight / 2 }

/-- Embedding of `CanvasInteractions.resizeLayerFromHandle`.  `c` and `sn`
are cos and sin of `o.rotation` in radians; `mouse` is the (possibly
grid-snapped) pointer world position.  The crop branch is taken when the
layer is in crop mode with recorded crop bounds and nonzero original
dimensions (JS truthiness), matching the source condition. -/
def resizeLayerFromHandle (layer : Layer) (o : TransformOrigin) (handle : Handle)
    (anchor dragStart mouse : Point) (c sn : ℚ) (isShiftPressed : Bool) : Layer :=
  match o.cropBounds with
  | some cb =>
    if layer.cropMode ∧ ¬(o.originalWidth = 0) ∧ ¬(o.originalHeight = 0) then
      resizeCropBranch layer o cb handle dragStart mouse c sn
    else
      resizeTransformBranch layer o handle anchor mouse c sn isShiftPressed
  | none => resizeTransformBranch layer o handle anchor mouse c sn isShiftPressed

/-- The crop-bounds invariant claimed by the specification: the rectangle
lies inside the original image and has extent at least 1 on both axes. -/
def cropBoundsInvariant (cb : Rect) (ow oh : ℚ) : Prop :=
  0 ≤ cb.x ∧ 0 ≤ cb.y ∧ cb.x + cb.width ≤ ow ∧ cb.y + cb.height ≤ oh ∧
    1 ≤ cb.width ∧ 1 ≤ cb.height

instance (cb : Rect) (ow oh : ℚ) : Decidable (cropBoundsInvariant cb ow oh) := by
  unfold cropBoundsInvariant
  infer_instance

/-- A horizontally flipped layer in crop mode used to exhibit the clamp
slip of `resizeLayerFromHandle`. -/
def c1Layer : Layer :=
  { id := 0, image := 0, x := 0, y := 0, width := 100, height := 100,
    originalWidth := 100, originalHeight := 100, rotation := 0,
    flipH := true, flipV := false, zIndex := 0, blendMode := 0, opacity := 1,
    visible := true, cropMode := true,
    cropBounds := some { x := 0, y := 0, width := 100, height := 100 },
    blendArea := 0 }

/-- C1.  The crop-mode clamp of `resizeLayerFromHandle` keys the
opposite-edge adjustment on the handle name and ignores the flip state, so
on a horizontally flipped layer a far drag of the east handle (which moves
the image-space left edge) leaves `cropBounds` with `x = 150 > originalWidth`
and `width = -50 < 1`: the clamp comment's own invariant is violated.
Failing input: layer of `c1Layer` (crop mode, flipH, crop 0,0,100,100 in a
100 by 100 image, rotation 0), east handle dragged from world (200,50) to
(50,50). -/
theorem c1_crop_clamp_violation :
    (resizeLayerFromHandle c1Layer (mkTransformOrigin c1Layer) Handle.e
        { x := 0, y := 0 } { x := 200, y := 50 } { x := 50, y := 50 } 1 0 false).cropBounds
      = some { x := 150, y := 0, width := -50, height := 100 }
    ∧ ¬ cropBoundsInvariant { x := 150, y := 0, width := -50, height := 100 } 100 100 := by
  norm_num [resizeLayerFromHandle, resizeCropBranch, mkTransformOrigin, c1Layer,
    cropBoundsInvariant, Handle.hasE, Handle.hasW, Handle.hasN, Handle.hasS]

/-- An unrotated, uncropped, unflipped layer at (0,0) of size 100 by 100, shared by several scenarios. -/
def baseLayer : Layer :=
  { id := 1, image := 0, x := 0, y := 0, width := 100, height := 100,
    originalWidth := 100, originalHeight := 100, rotation := 0,
    flipH := false, flipV := false, zIndex := 0, blendMode := 0, opacity := 1,
    visible := true, cropMode := false, cropBounds := none, blendArea := 0 }

/-- C2.  Scenario: layer at (0,0,100,100), rotation 0, not in crop mode;
dragging the se handle to world (150,150) with no modifiers resizes the
layer to (0,0,150,150), and the nw anchor handle (the fixed point chosen by
`startLayerTransform`, at world (0,0)) has the same world position before
and after the resize. -/
theorem c2_se_resize_scenario :
    startResizeAnchor baseLayer Handle.se 1 0 1 = { x := 0, y := 0 }
    ∧ (resizeLayerFromHandle baseLayer (mkTransformOrigin baseLayer) Handle.se
        (startResizeAnchor baseLayer Handle.se 1 0 1) { x := 100, y := 100 }
        { x := 150, y := 150 } 1 0 false)
      = { baseLayer with x := 0, y := 0, width := 150, height := 150 }
    ∧ (getHandles { baseLayer with x := 0, y := 0, width := 150, height := 150 } 1 0 1).nw
      = (getHandles baseLayer 1 0 1).nw := by
  norm_num [startResizeAnchor, getHandles, handlePoint, oppositeHandle,
    resizeLayerFromHandle, resizeTransformBranch, mkTransformOrigin, baseLayer, signOrOne,
    Handle.hasE, Handle.hasW, Handle.hasN, Handle.hasS, Point.mk.injEq, Layer.mk.injEq]

/-- The pan and zoom state of the viewport. -/
structure Viewport where
  x : ℚ
  y : ℚ
  zoom : ℚ
  deriving DecidableEq, Repr

/-- Embedding of `CanvasInteractions.performZoomOperation`
(CanvasInteractions.js lines 67-79): remember the screen-space offset of the
cursor, clamp the new zoom into [0.1, 10], and recompute the viewport origin
from the remembered offset. -/
def performZoomOperation (v : Viewport) (w : Point) (zoomFactor : ℚ) : Viewport :=
  let mouseBufferX := (w.x - v.x) * v.zoom
  let mouseBufferY := (w.y - v.y) * v.zoom
  let newZoom := max (1/10) (min 10 (v.zoom * zoomFactor))
  { x := w.x - mouseBufferX / newZoom
    y := w.y - mouseBufferY / newZoom
    zoom := newZoom }

/-- C7.  For every cursor world point and zoom factor,
`performZoomOperation` clamps the resulting zoom into [0.1, 10] (never
rejecting the operation) and recomputes the viewport origin so that the
screen position of the cursor world point, namely
`(p - viewport.xy) * viewport.zoom`, is unchanged. -/
theorem c7_zoom_pins_cursor (v : Viewport) (w : Point) (zoomFactor : ℚ) :
    1/10 ≤ (performZoomOperation v w zoomFactor).zoom
    ∧ (performZoomOperation v w zoomFactor).zoom ≤ 10
    ∧ (w.x - (performZoomOperation v w zoomFactor).x) * (performZoomOperation v w zoomFactor).zoom
      = (w.x - v.x) * v.zoom
    ∧ (w.y - (performZoomOperation v w zoomFactor).y) * (performZoomOperation v w zoomFactor).zoom
      = (w.y - v.y) * v.zoom := by
  have hpos : (0 : ℚ) < max (1/10) (min 10 (v.zoom * zoomFactor)) :=
    lt_of_lt_of_le (by norm_num) (le_max_left _ _)
  have hne : max (1/10) (min 10 (v.zoom * zoomFactor)) ≠ 0 := ne_of_gt hpos
  refine ⟨le_max_left _ _, max_le (by norm_num) (min_le_left _ _), ?_, ?_⟩
  · show (w.x - (w.x - (w.x - v.x) * v.zoom / max (1/10) (min 10 (v.zoom * zoomFactor))))
        * max (1/10) (min 10 (v.zoom * zoomFactor)) = (w.x - v.x) * v.zoom
    rw [sub_sub_cancel, div_mul_cancel₀ _ hne]
  · show (w.y - (w.y - (w.y - v.y) * v.zoom / max (1/10) (min 10 (v.zoom * zoomFactor))))
        * max (1/10) (min 10 (v.zoom * zoomFactor)) = (w.y - v.y) * v.zoom
    rw [sub_sub_cancel, div_mul_cancel₀ _ hne]

/-- Serializable projection of a layer: every field except the owned image
reference, which history snapshots share by identity. -/
structure SerialLayer where
  id : ℕ
  x : ℚ
  y : ℚ
  width : ℚ
  height : ℚ
  originalWidth : ℚ
  originalHeight : ℚ
  rotation : ℚ
  flipH : Bool
  flipV : Bool
  zIndex : ℤ
  blendMode : ℕ
  opacity : ℚ
  visible : Bool
  cropMode : Bool
  cropBounds : Option Rect
  blendArea : ℚ
  deriving DecidableEq, Repr

/-- Drop the image reference of a layer, keeping the serializable fields. -/
def serializeLayer (l : Layer) : SerialLayer :=
  { id := l.id, x := l.x, y := l.y, width := l.width, height := l.height,
    originalWidth := l.originalWidth, originalHeight := l.originalHeight,
    rotation := l.rotation, flipH := l.flipH, flipV := l.flipV,
    zIndex := l.zIndex, blendMode := l.blendMode, opacity := l.opacity,
    visible := l.visible, cropMode := l.cropMode, cropBounds := l.cropBounds,
    blendArea := l.blendArea }

/-- Modelled from the spec: `getStateSignature` (utils/CommonUtils.js, not
under src/) computes a structural signature over the serializable layer
fields.  We model the signature as the list of serializable projections
itself, which identifies two states exactly when their serializable fields
agree. -/
def getStateSignature (ls : List Layer) : List SerialLayer :=
  ls.map serializeLayer

/-- Modelled from the spec: `cloneLayers` (utils/CommonUtils.js, not under
src/) deep-clones the serializable fields of each layer and shares the image
reference by identity; on immutable Lean values this is the identity map. -/
def cloneLayers (ls : List Layer) : List Layer :=
  ls

/-- The history limit of `CanvasState` (`this.historyLimit = 100`). -/
def historyLimit : ℕ := 100

/-- The state owned by `CanvasState`: the layer store, the two undo and two
redo stacks (head of the list is the top of the stack, so the JS `shift`
eviction of the oldest entry is `dropLast`), the current mask raster content
(an opaque token, copied by value when cloned) and whether the mask tool is
active. -/
structure CanvasState where
  layers : List Layer
  layersUndoStack : List (List Layer)
  layersRedoStack : List (List Layer)
  maskUndoStack : List ℕ
  maskRedoStack : List ℕ
  currentMask : ℕ
  maskActive : Bool
  deriving DecidableEq, Repr

/-- Embedding of `CanvasState.saveLayersState` (CanvasState.ts lines
358-385): optionally pop the top for `replaceLast`, then push a clone of the
layer store only if its signature differs from the current top; evict the
oldest entry past the history limit and clear the redo stack.  The early
dedup return leaves the redo stack untouched. -/
def saveLayersState (st : CanvasState) (replaceLast : Bool) : CanvasState :=
  let stack0 :=
    if replaceLast ∧ st.layersUndoStack ≠ [] then st.layersUndoStack.tail
    else st.layersUndoStack
  let currentState := cloneLayers st.layers
  let isDup :=
    match stack0.head? with
    | some lastState =>
        decide (getStateSignature lastState = getStateSignature currentState)
    | none => false
  if isDup then
    { st with layersUndoStack := stack0 }
  else
    let pushed := currentState :: stack0
    let limited := if pushed.length > historyLimit then pushed.dropLast else pushed
    { st with layersUndoStack := limited, layersRedoStack := [] }

/-- Embedding of `CanvasState.saveMaskState` (CanvasState.ts lines 387-406):
optionally pop the top for `replaceLast`, then push a copy of the current
mask unconditionally (the source performs no signature comparison); evict
the oldest entry past the history limit and clear the mask redo stack. -/
def saveMaskState (st : CanvasState) (replaceLast : Bool) : CanvasState :=
  let stack0 :=
    if replaceLast ∧ st.maskUndoStack ≠ [] then st.maskUndoStack.tail
    else st.maskUndoStack
  let cloned := st.currentMask
  let pushed := cloned :: stack0
  let limited := if pushed.length > historyLimit then pushed.dropLast else pushed
  { st with maskUndoStack := limited, maskRedoStack := [] }

/-- Embedding of `CanvasState.saveState`: dispatch on whether the mask tool
is active. -/
def saveState (st : CanvasState) (replaceLast : Bool) : CanvasState :=
  if st.maskActive then saveMaskState st replaceLast else saveLayersState st replaceLast

/-- Embedding of `CanvasState.undoLayersState` (CanvasState.ts lines
424-436): requires at least 2 entries; pops the top onto the redo stack and
restores the layer store from the new top. -/
def undoLayersState (st : CanvasState) : CanvasState :=
  match st.layersUndoStack with
  | currentState :: prevState :: rest =>
      { st with
          layersUndoStack := prevState :: rest
          layersRedoStack := currentState :: st.layersRedoStack
          layers := cloneLayers prevState }
  | _ => st

/-- Embedding of `CanvasState.redoLayersState` (CanvasState.ts lines
438-449): requires a nonempty redo stack; pops it onto the undo stack and
restores the layer store from the popped entry. -/
def redoLayersState (st : CanvasState) : CanvasState :=
  match st.layersRedoStack with
  | nextState :: rest =>
      { st with
          layersRedoStack := rest
          layersUndoStack := nextState :: st.layersUndoStack
          layers := cloneLayers nextState }
  | [] => st

/-- Embedding of `CanvasState.undoMaskState` (CanvasState.ts lines 451-472). -/
def undoMaskState (st : CanvasState) : CanvasState :=
  match st.maskUndoStack with
  | currentState :: prevState :: rest =>
      { st with
          maskUndoStack := prevState :: rest
          maskRedoStack := currentState :: st.maskRedoStack
          currentMask := prevState }
  | _ => st

/-- Embedding of `CanvasState.redoMaskState` (CanvasState.ts lines 474-490). -/
def redoMaskState (st : CanvasState) : CanvasState :=
  match st.maskRedoStack with
  | nextState :: rest =>
      { st with
          maskRedoStack := rest
          maskUndoStack := nextState :: st.maskUndoStack
          currentMask := nextState }
  | [] => st

/-- The snapshot operation never changes the layer store itself. -/
theorem saveLayersState_layers (st : CanvasState) (b : Bool) :
    (saveLayersState st b).layers = st.layers := by
  simp only [saveLayersState]
  split <;> split <;> rfl

/-- After a snapshot (without `replaceLast`), the top of the layer undo
stack carries the signature of the current layer store. -/
theorem saveLayersState_head_sig (st : CanvasState) :
    ∃ L, (saveLayersState st false).layersUndoStack.head? = some L
      ∧ getStateSignature L = getStateSignature st.layers := by
  cases hs : st.layersUndoStack with
  | nil =>
      refine ⟨st.layers, ?_, rfl⟩
      simp [saveLayersState, hs, cloneLayers, historyLimit]
  | cons lastState rest =>
      by_cases hsig : getStateSignature lastState = getStateSignature st.layers
      · exact ⟨lastState, by simp [saveLayersState, hs, cloneLayers, hsig], hsig⟩
      · refine ⟨st.layers, ?_, rfl⟩
        simp only [saveLayersState, hs, cloneLayers, hsig, List.head?_cons,
          Bool.false_eq_true, false_and, ite_false, decide_eq_true_eq, if_false]
        split <;> simp

/-- A snapshot of a layer store whose signature already sits on top of the
undo stack is deduplicated: the stack is left unchanged. -/
theorem saveLayersState_of_head_sig (st : CanvasState) (L : List Layer)
    (hhead : st.layersUndoStack.head? = some L)
    (hsig : getStateSignature L = getStateSignature st.layers) :
    (saveLayersState st false).layersUndoStack = st.layersUndoStack := by
  simp [saveLayersState, hhead, cloneLayers, hsig]

/-- Length evolution of the mask undo stack under one snapshot. -/
theorem saveMaskState_length (st : CanvasState) :
    (saveMaskState st false).maskUndoStack.length
      = if st.maskUndoStack.length + 1 > historyLimit
        then st.maskUndoStack.length else st.maskUndoStack.length + 1 := by
  by_cases hl : st.maskUndoStack.length + 1 > historyLimit
  · simp [saveMaskState, hl]
  · simp [saveMaskState, hl]

/-- A canvas state with the mask tool active and a one-entry (baseline) mask
undo stack. -/
def c4MaskState : CanvasState :=
  { layers := [], layersUndoStack := [], layersRedoStack := [],
    maskUndoStack := [7], maskRedoStack := [], currentMask := 7,
    maskActive := true }

/-- C4 counterexample.  With the mask tool active, calling the snapshot
operation twice with no intervening mutation pushes twice: the mask undo
stack grows from 1 entry (the baseline) to 3, not to the 2 the claim
requires, because `saveMaskState` performs no signature deduplication. -/
theorem c4_mask_no_dedup_counterexample :
    c4MaskState.maskUndoStack.length = 1
    ∧ (saveState (saveState c4MaskState false) false).maskUndoStack.length = 3 := by
  decide

/-- C4 amended.  Calling the snapshot operation twice with no intervening
mutation yields exactly one entry beyond the baseline on the layer-state
stack (the second call is deduplicated by structural signature and leaves
the stack unchanged), while the mask-state stack has no deduplication and
gains one entry per call. -/
theorem c4_snapshot_dedup (st : CanvasState) (h : st.maskUndoStack.length ≤ 100) :
    (saveLayersState (saveLayersState st false) false).layersUndoStack
      = (saveLayersState st false).layersUndoStack
    ∧ (saveMaskState (saveMaskState st false) false).maskUndoStack.length
      = min (st.maskUndoStack.length + 2) 100 := by
  constructor
  · obtain ⟨L, hhead, hsig⟩ := saveLayersState_head_sig st
    exact saveLayersState_of_head_sig (saveLayersState st false) L hhead
      (by rw [saveLayersState_layers]; exact hsig)
  · rw [saveMaskState_length, saveMaskState_length]
    unfold historyLimit
    split_ifs <;> omega

/-- C4 witness: the amended dedup theorem applied at a concrete state. -/
theorem c4_snapshot_dedup_witness :
    c4MaskState.maskUndoStack.length ≤ 100
    ∧ ((saveLayersState (saveLayersState c4MaskState false) false).layersUndoStack
        = (saveLayersState c4MaskState false).layersUndoStack
      ∧ (saveMaskState (saveMaskState c4MaskState false) false).maskUndoStack.length
        = min (c4MaskState.maskUndoStack.length + 2) 100) :=
  ⟨by decide, c4_snapshot_dedup c4MaskState (by decide)⟩

/-- The snapshot operation never changes whether the mask tool is active. -/
theorem saveLayersState_maskActive (st : CanvasState) (b : Bool) :
    (saveLayersState st b).maskActive = st.maskActive := by
  simp only [saveLayersState]
  split <;> split <;> rfl

/-- A state with a baseline entry and one more entry on the layer undo
stack, used to exercise the undo and redo guards. -/
def c5State : CanvasState :=
  { layers := [baseLayer], layersUndoStack := [[baseLayer], []], layersRedoStack := [],
    maskUndoStack := [], maskRedoStack := [], currentMask := 0, maskActive := false }

/-- C5 counterexample.  After one undo the layer undo stack holds a single
entry, yet redo still restores (it only requires a nonempty redo stack): the
claim that redo requires at least 2 entries on the undo stack before
restoring anything is false. -/
theorem c5_redo_counterexample :
    (undoLayersState c5State).layersUndoStack.length = 1
    ∧ redoLayersState (undoLayersState c5State) ≠ undoLayersState c5State := by
  decide

/-- C5 amended.  Undo requires at least 2 entries on the active undo stack
(the baseline at the bottom is never undone past), while redo requires at
least 1 entry on the active redo stack; when the respective precondition is
not met the operation returns without modifying the layer store or any
stack. -/
theorem c5_guard_behaviour (st : CanvasState) :
    (st.layersUndoStack.length ≤ 1 → undoLayersState st = st)
    ∧ (st.layersRedoStack = [] → redoLayersState st = st)
    ∧ (st.maskUndoStack.length ≤ 1 → undoMaskState st = st)
    ∧ (st.maskRedoStack = [] → redoMaskState st = st) := by
  refine ⟨?_, ?_, ?_, ?_⟩
  · intro h
    cases hs : st.layersUndoStack with
    | nil => simp [undoLayersState, hs]
    | cons a t =>
        cases t with
        | nil => simp [undoLayersState, hs]
        | cons b u =>
            rw [hs] at h
            simp only [List.length_cons] at h
            omega
  · intro h
    simp [redoLayersState, h]
  · intro h
    cases hs : st.maskUndoStack with
    | nil => simp [undoMaskState, hs]
    | cons a t =>
        cases t with
        | nil => simp [undoMaskState, hs]
        | cons b u =>
            rw [hs] at h
            simp only [List.length_cons] at h
            omega
  · intro h
    simp [redoMaskState, h]

/-- A canvas state with empty history stacks. -/
def c5EmptyState : CanvasState :=
  { layers := [], layersUndoStack := [], layersRedoStack := [],
    maskUndoStack := [], maskRedoStack := [], currentMask := 0, maskActive := false }

/-- C5 witness: the guard theorem applied at a concrete state. -/
theorem c5_guard_witness :
    c5EmptyState.layersUndoStack.length ≤ 1
    ∧ undoLayersState c5EmptyState = c5EmptyState
    ∧ redoLayersState c5EmptyState = c5EmptyState :=
  ⟨by decide, (c5_guard_behaviour c5EmptyState).1 (by decide),
    (c5_guard_behaviour c5EmptyState).2.1 (by decide)⟩

/-- Replace the layer store, as the interaction machine does before a
snapshot. -/
def withLayers (st : CanvasState) (L : List Layer) : CanvasState :=
  { st with layers := L }

/-- Perform k snapshots: before the i-th snapshot the layer store is set to
`f i`, then `saveState` runs with the mask tool state of the session. -/
def snapshotRun (st : CanvasState) (f : ℕ → List Layer) : ℕ → CanvasState
  | 0 => st
  | k + 1 => saveState (withLayers (snapshotRun st f k) (f k)) false

/-- Perform m undo operations on the layer history. -/
def undoRun (st : CanvasState) : ℕ → CanvasState
  | 0 => st
  | m + 1 => undoLayersState (undoRun st m)

/-- The layer undo stack produced by k pushes of `f 0, ..., f (k-1)` with
the most recent on top. -/
def revSnapStack (f : ℕ → List Layer) (k : ℕ) : List (List Layer) :=
  ((List.range k).map f).reverse

theorem revSnapStack_succ (f : ℕ → List Layer) (k : ℕ) :
    revSnapStack f (k + 1) = f k :: revSnapStack f k := by
  unfold revSnapStack
  rw [List.range_succ, List.map_append, List.reverse_append]
  simp

theorem revSnapStack_length (f : ℕ → List Layer) (k : ℕ) :
    (revSnapStack f k).length = k := by
  simp [revSnapStack]

/-- When the top of the stack has a different signature and the limit is not
reached, a snapshot pushes the current layer store. -/
theorem saveLayersState_push (s2 : CanvasState)
    (hnodup : ∀ L, s2.layersUndoStack.head? = some L →
      getStateSignature L ≠ getStateSignature s2.layers)
    (hlen : s2.layersUndoStack.length + 1 ≤ 100) :
    (saveLayersState s2 false).layersUndoStack = s2.layers :: s2.layersUndoStack := by
  cases hs : s2.layersUndoStack with
  | nil => simp [saveLayersState, hs, cloneLayers, historyLimit]
  | cons a t =>
      have hne := hnodup a (by rw [hs]; rfl)
      rw [hs] at hlen
      simp only [List.length_cons] at hlen
      simp only [saveLayersState, hs, cloneLayers, List.head?_cons, Bool.false_eq_true,
        false_and, ite_false]
      rw [if_neg (by simp [hne])]
      rw [if_neg (by simp only [List.length_cons, historyLimit]; omega)]

/-- Stack, mask flag and layer store after k snapshots of `f 0, ..., f (k-1)`
starting from an empty layer undo stack with the mask tool inactive. -/
theorem snapshotRun_spec (f : ℕ → List Layer) (st : CanvasState) (N : ℕ)
    (hstack : st.layersUndoStack = []) (hmask : st.maskActive = false)
    (hN2 : N ≤ 100)
    (hdist : ∀ i, i < N - 1 → getStateSignature (f (i + 1)) ≠ getStateSignature (f i)) :
    ∀ k, k ≤ N →
      (snapshotRun st f k).layersUndoStack = revSnapStack f k
      ∧ (snapshotRun st f k).maskActive = false
      ∧ (snapshotRun st f k).layers = (if k = 0 then st.layers else f (k - 1)) := by
  intro k
  induction k with
  | zero =>
      intro _
      refine ⟨?_, hmask, by simp [snapshotRun]⟩
      simpa [snapshotRun, revSnapStack] using hstack
  | succ k ih =>
      intro hk
      obtain ⟨ihs, ihm, _⟩ := ih (by omega)
      have hm2 : (withLayers (snapshotRun st f k) (f k)).maskActive = false := by
        simpa [withLayers] using ihm
      have hsave : snapshotRun st f (k + 1)
          = saveLayersState (withLayers (snapshotRun st f k) (f k)) false := by
        simp [snapshotRun, saveState, hm2]
      have hs2 : (withLayers (snapshotRun st f k) (f k)).layersUndoStack
          = revSnapStack f k := by
        simpa [withLayers] using ihs
      have hl2 : (withLayers (snapshotRun st f k) (f k)).layers = f k := rfl
      have hpush : (saveLayersState (withLayers (snapshotRun st f k) (f k)) false).layersUndoStack
          = f k :: revSnapStack f k := by
        rw [saveLayersState_push, hs2, hl2]
        · intro L hL hsig
          rw [hs2] at hL
          cases k with
          | zero => simp [revSnapStack] at hL
          | succ j =>
              rw [revSnapStack_succ] at hL
              simp only [List.head?_cons, Option.some.injEq] at hL
              subst hL
              rw [hl2] at hsig
              exact hdist j (by omega) hsig.symm
        · rw [hs2, revSnapStack_length]
          omega
      refine ⟨?_, ?_, ?_⟩
      · rw [hsave, hpush, revSnapStack_succ]
      · rw [hsave, saveLayersState_maskActive, hm2]
      · rw [hsave, saveLayersState_layers, hl2]
        simp

/-- Effect of m undo operations on a stack of m + k + 1 snapshot entries:
the store ends at `f k` and the stack keeps entries `f 0, ..., f k`. -/
theorem undoRun_spec (f : ℕ → List Layer) :
    ∀ (m k : ℕ) (st2 : CanvasState),
      st2.layersUndoStack = revSnapStack f (k + m + 1) →
      (undoRun st2 m).layers = (if m = 0 then st2.layers else f k)
      ∧ (undoRun st2 m).layersUndoStack = revSnapStack f (k + 1) := by
  intro m
  induction m with
  | zero =>
      intro k st2 h
      exact ⟨by simp [undoRun], by simpa [undoRun] using h⟩
  | succ m ih =>
      intro k st2 h
      obtain ⟨_, hs2⟩ := ih (k + 1) st2 (by rw [h]; congr 1; omega)
      have hstk : (undoRun st2 m).layersUndoStack
          = f (k + 1) :: f k :: revSnapStack f k := by
        rw [hs2, revSnapStack_succ, revSnapStack_succ]
      constructor
      · show (undoLayersState (undoRun st2 m)).layers = _
        simp [undoLayersState, hstk, cloneLayers]
      · show (undoLayersState (undoRun st2 m)).layersUndoStack = _
        simp [undoLayersState, hstk, revSnapStack_succ]

/-- C6 amended.  For every N with 1 ≤ N ≤ 100 (the history limit), starting
with an empty layer undo stack and the mask tool inactive, N snapshots of
layer states `f 0, ..., f (N-1)` whose adjacent signatures differ, followed
by N - 1 undo operations, restore the layer store to the baseline layer
state `f 0` (structural equality; image references are shared by identity
throughout). -/
theorem c6_undo_returns_baseline (f : ℕ → List Layer) (st : CanvasState) (N : ℕ)
    (hstack : st.layersUndoStack = []) (hmask : st.maskActive = false)
    (hN1 : 1 ≤ N) (hN2 : N ≤ 100)
    (hdist : ∀ i, i < N - 1 → getStateSignature (f (i + 1)) ≠ getStateSignature (f i)) :
    (undoRun (snapshotRun st f N) (N - 1)).layers = f 0 := by
  obtain ⟨hstk, _, hly⟩ := snapshotRun_spec f st N hstack hmask hN2 hdist N le_rfl
  have h0 : (snapshotRun st f N).layersUndoStack = revSnapStack f (0 + (N - 1) + 1) := by
    rw [hstk]
    congr 1
    omega
  obtain ⟨hfinal, _⟩ := undoRun_spec f (N - 1) 0 (snapshotRun st f N) h0
  rw [hfinal]
  by_cases hN : N - 1 = 0
  · have h1 : N = 1 := by omega
    rw [if_pos hN, hly, if_neg (by omega), h1]
  · rw [if_neg hN]

/-- A one-layer store whose only layer has blend mode i, giving a family of
pairwise structurally distinct layer states. -/
def stateOf (i : ℕ) : List Layer :=
  [{ baseLayer with blendMode := i }]

/-- The session start state for the history scenarios: the layer store holds
the baseline state and both history stacks are empty. -/
def c6Start : CanvasState :=
  { layers := stateOf 0, layersUndoStack := [], layersRedoStack := [],
    maskUndoStack := [], maskRedoStack := [], currentMask := 0, maskActive := false }

set_option maxRecDepth 40000 in
/-- C6 counterexample.  For N = 101 the claim fails: the history limit of
100 evicts the baseline entry during the 101st snapshot, so 100 undo
operations end at the state of the second snapshot, not the baseline. -/
theorem c6_limit_counterexample :
    (undoRun (snapshotRun c6Start stateOf 101) 100).layers = stateOf 1
    ∧ stateOf 1 ≠ stateOf 0 := by
  decide

/-- C6 witness: the amended theorem applied at N = 2 with concrete states. -/
theorem c6_undo_witness :
    (undoRun (snapshotRun c6Start stateOf 2) 1).layers = stateOf 0 :=
  c6_undo_returns_baseline stateOf c6Start 2 (by decide) (by decide) (by decide)
    (by decide) (by decide)

/-- Swap two positions of a list, used for the adjacent swaps of
`moveLayers`; out-of-range indices leave the list unchanged. -/
def swapList (l : List Layer) (i j : ℕ) : List Layer :=
  match l.get? i, l.get? j with
  | some a, some b => (l.set i b).set j a
  | _, _ => l

theorem swapList_length (l : List Layer) (i j : ℕ) :
    (swapList l i j).length = l.length := by
  unfold swapList
  split <;> simp

/-- Renumber a list of layers to consecutive zIndex values starting at i
(the contiguous renumbering pass of `moveLayers` and `fuseLayers`). -/
def renumberAsc : ℕ → List Layer → List Layer
  | _, [] => []
  | i, a :: rest => { a with zIndex := (i : ℤ) } :: renumberAsc (i + 1) rest

theorem renumberAsc_map (i : ℕ) (l : List Layer) :
    (renumberAsc i l).map (fun a => a.zIndex)
      = (List.range' i l.length).map (fun n : ℕ => (n : ℤ)) := by
  induction l generalizing i with
  | nil => rfl
  | cons a rest ih =>
      simp only [renumberAsc, List.map_cons, List.length_cons, List.range'_succ]
      exact congrArg _ (ih (i + 1))

theorem renumberAsc_length (i : ℕ) (l : List Layer) :
    (renumberAsc i l).length = l.length := by
  induction l generalizing i with
  | nil => rfl
  | cons a rest ih => simp [renumberAsc, ih]

/-- Renumber a list of layers to zIndex values total - 1 - index (the
display-order renumbering of the `toIndex` branch of `moveLayers`). -/
def renumberDesc (total : ℕ) : ℕ → List Layer → List Layer
  | _, [] => []
  | i, a :: rest =>
      { a with zIndex := (total : ℤ) - 1 - (i : ℤ) } :: renumberDesc total (i + 1) rest

theorem renumberDesc_map (total i : ℕ) (l : List Layer) :
    (renumberDesc total i l).map (fun a => a.zIndex)
      = (List.range' i l.length).map (fun n : ℕ => (total : ℤ) - 1 - (n : ℤ)) := by
  induction l generalizing i with
  | nil => rfl
  | cons a rest ih =>
      simp only [renumberDesc, List.map_cons, List.length_cons, List.range'_succ]
      exact congrArg _ (ih (i + 1))

theorem renumberDesc_length (total i : ℕ) (l : List Layer) :
    (renumberDesc total i l).length = l.length := by
  induction l generalizing i with
  | nil => rfl
  | cons a rest ih => simp [renumberDesc, ih]

/-- Reversal identity behind the display-order renumbering: the values
total - 1 - k over k in range total are the reversal of range total. -/
theorem range_map_rev (n : ℕ) :
    (List.range n).map (fun k : ℕ => (n : ℤ) - 1 - (k : ℤ))
      = ((List.range n).map (fun k : ℕ => (k : ℤ))).reverse := by
  induction n with
  | zero => rfl
  | succ n ih =>
      conv_lhs => rw [List.range_succ_eq_map]
      conv_rhs => rw [List.range_succ]
      simp only [List.map_cons, List.map_map, List.map_append, List.map_nil,
        List.reverse_append, List.reverse_cons, List.reverse_nil, List.nil_append,
        List.singleton_append]
      congr 1
      · push_cast
        ring
      · rw [← ih]
        apply List.map_congr_left
        intro k _
        simp only [Function.comp_apply]
        push_cast
        ring

/-- The layer paint-order comparator used by the source `.sort` calls. -/
def zAsc (a b : Layer) : Bool := a.zIndex ≤ b.zIndex

/-- The display-order comparator (descending zIndex). -/
def zDesc (a b : Layer) : Bool := b.zIndex ≤ a.zIndex

/-- Direction of a relative z-order move. -/
inductive Direction where
  | up | down
  deriving DecidableEq, Repr

/-- The options object of `CanvasLayers.moveLayers`. -/
structure MoveOptions where
  direction : Option Direction
  toIndex : Option ℕ
  deriving DecidableEq, Repr

/-- Direction branch of `CanvasLayers.moveLayers` (part_000 lines
2106-2127 and 2152-2159): collect the store indices of the selected layers
(JS object identity modelled by layer id), process them descending for up
and ascending for down, swap each with the adjacent non-selected slot when
present, renumber every layer to its array index and sort by zIndex. -/
def moveByDirection (store toMove : List Layer) (d : Direction) : List Layer :=
  let selectedIndices :=
    (toMove.filterMap (fun l => store.findIdx? (fun a => a.id == l.id))).dedup
  let sorted :=
    match d with
    | .up => selectedIndices.mergeSort (fun a b => b ≤ a)
    | .down => selectedIndices.mergeSort (fun a b => a ≤ b)
  let swapped := sorted.foldl (fun acc i =>
    match d with
    | .up =>
        if i + 1 < acc.length ∧ ¬ (i + 1) ∈ selectedIndices then swapList acc i (i + 1)
        else acc
    | .down =>
        if i ≠ 0 ∧ ¬ (i - 1) ∈ selectedIndices then swapList acc i (i - 1)
        else acc) store
  (renumberAsc 0 swapped).mergeSort zAsc

/-- The reinsertion loop of the `toIndex` branch (part_000 lines 2129-2146):
walk the displayed (descending zIndex) list, splice the moved layers in at
the target display index, drop them from their old positions, and append
them at the end when the target index lies past the end. -/
def insertAt : ℕ → List Layer → List Layer → List Layer
  | 0, toMove, l => toMove ++ l.filter (fun a => ! toMove.any (fun m => m.id == a.id))
  | _ + 1, toMove, [] => toMove
  | t + 1, toMove, a :: rest =>
      (if toMove.any (fun m => m.id == a.id) then [] else [a]) ++ insertAt t toMove rest

/-- Absolute-index branch of `CanvasLayers.moveLayers` (part_000 lines
2128-2159): reinsert the selection at the target display index, renumber
zIndex as count - 1 - position, and sort the store by zIndex. -/
def moveToIndex (store toMove : List Layer) (t : ℕ) : List Layer :=
  let displayedLayers := store.mergeSort zDesc
  let reorderedFinal := insertAt t toMove displayedLayers
  let total := reorderedFinal.length
  (renumberDesc total 0 reorderedFinal).mergeSort zAsc

/-- Embedding of `CanvasLayers.moveLayers` (part_000 lines 2101-2168):
empty selections return early; a `direction` option takes priority over
`toIndex`; with neither option the call is a warned no-op. -/
def moveLayers (store toMove : List Layer) (opts : MoveOptions) : List Layer :=
  if toMove.length = 0 then store
  else
    match opts.direction, opts.toIndex with
    | some d, _ => moveByDirection store toMove d
    | none, some t => moveToIndex store toMove t
    | none, none => store

/-- The world-space corners of a layer frame rotated about its center, as
enumerated by `fuseLayers`; cos and sin of a rotation are supplied by the
oracle `cossin`. -/
def layerCorners (l : Layer) (cossin : ℚ → ℚ × ℚ) : List Point :=
  let cx := l.x + l.width / 2
  let cy := l.y + l.height / 2
  let cs := cossin l.rotation
  let hw := l.width / 2
  let hh := l.height / 2
  ([{ x := -hw, y := -hh }, { x := hw, y := -hh }, { x := hw, y := hh },
    { x := -hw, y := hh }] : List Point).map (fun p =>
    { x := cx + (p.x * cs.1 - p.y * cs.2), y := cy + (p.x * cs.2 + p.y * cs.1) })

/-- Fold of JS `Math.min` over a list (starting from infinity; only used on
nonempty lists, where the result is the least element). -/
def foldMinQ : List ℚ → ℚ
  | [] => 0
  | a :: rest => rest.foldl min a

/-- Fold of JS `Math.max` over a list (starting from negative infinity; only
used on nonempty lists, where the result is the greatest element). -/
def foldMaxQ : List ℚ → ℚ
  | [] => 0
  | a :: rest => rest.foldl max a

/-- Fold of JS `Math.min` over the zIndex values of a nonempty selection. -/
def foldMinZ : List ℤ → ℤ
  | [] => 0
  | a :: rest => rest.foldl min a

/-- The ceiling-rounded size of the bounding box of the selected layers
(`fusedWidth` and `fusedHeight` of the source). -/
def fusedSize (selected : List Layer) (cossin : ℚ → ℚ × ℚ) : ℤ × ℤ :=
  let pts := (selected.map (fun l => layerCorners l cossin)).flatten
  (⌈foldMaxQ (pts.map (fun p => p.x)) - foldMinQ (pts.map (fun p => p.x))⌉,
   ⌈foldMaxQ (pts.map (fun p => p.y)) - foldMinQ (pts.map (fun p => p.y))⌉)

/-- The entry guards of `fuseLayers`: at least two selected layers and a
computed bounding box of positive extents. -/
def fuseGuardOk (selected : List Layer) (cossin : ℚ → ℚ × ℚ) : Prop :=
  2 ≤ selected.length ∧ 0 < (fusedSize selected cossin).1 ∧ 0 < (fusedSize selected cossin).2

/-- Embedding of `CanvasLayers.fuseLayers` (part_000 lines 3641-3747):
replace the selected layers with a single flattened layer at the lowest
selected zIndex, then sort by zIndex and renumber every layer to its array
index.  The flattened raster is the opaque token `imgTok`, the new layer id
is `newId`.  Early returns (fewer than 2 selected, degenerate computed
dimensions) leave the store unchanged. -/
def fuseLayers (store selected : List Layer) (cossin : ℚ → ℚ × ℚ)
    (newId imgTok : ℕ) : List Layer :=
  if selected.length < 2 then store
  else
    let pts := (selected.map (fun l => layerCorners l cossin)).flatten
    let minX := foldMinQ (pts.map (fun p => p.x))
    let minY := foldMinQ (pts.map (fun p => p.y))
    let size := fusedSize selected cossin
    if size.1 ≤ 0 ∨ size.2 ≤ 0 then store
    else
      let minZ := foldMinZ (selected.map (fun l => l.zIndex))
      let fusedLayer : Layer :=
        { id := newId, image := imgTok, x := minX, y := minY,
          width := (size.1 : ℚ), height := (size.2 : ℚ),
          originalWidth := (size.1 : ℚ), originalHeight := (size.2 : ℚ),
          rotation := 0, flipH := false, flipV := false, zIndex := minZ,
          blendMode := 0, opacity := 1, visible := true, cropMode := false,
          cropBounds := none, blendArea := 0 }
      let remaining := store.filter (fun l => ! selected.any (fun m => m.id == l.id))
      let pushed := remaining ++ [fusedLayer]
      renumberAsc 0 (pushed.mergeSort zAsc)

/-- Ascending renumbering followed by the zIndex sort yields zIndex values
that are a permutation of 0, ..., N-1. -/
theorem perm_renumberAsc_sort (x : List Layer) :
    (((renumberAsc 0 x).mergeSort zAsc).map (fun l => l.zIndex)).Perm
      ((List.range ((renumberAsc 0 x).mergeSort zAsc).length).map (fun n : ℕ => (n : ℤ))) := by
  have hperm := List.mergeSort_perm (renumberAsc 0 x) zAsc
  have hmap := hperm.map (fun l => l.zIndex)
  rw [renumberAsc_map] at hmap
  have hlen : ((renumberAsc 0 x).mergeSort zAsc).length = x.length := by
    rw [hperm.length_eq, renumberAsc_length]
  rw [hlen, List.range_eq_range']
  exact hmap

/-- Descending renumbering followed by the zIndex sort yields zIndex values
that are a permutation of 0, ..., N-1. -/
theorem perm_renumberDesc_sort (x : List Layer) :
    (((renumberDesc x.length 0 x).mergeSort zAsc).map (fun l => l.zIndex)).Perm
      ((List.range ((renumberDesc x.length 0 x).mergeSort zAsc).length).map
        (fun n : ℕ => (n : ℤ))) := by
  have hperm := List.mergeSort_perm (renumberDesc x.length 0 x) zAsc
  have hmap := hperm.map (fun l => l.zIndex)
  rw [renumberDesc_map] at hmap
  have hlen : ((renumberDesc x.length 0 x).mergeSort zAsc).length = x.length := by
    rw [hperm.length_eq, renumberDesc_length]
  rw [hlen, List.range_eq_range']
  refine hmap.trans ?_
  rw [← List.range_eq_range', range_map_rev]
  exact List.reverse_perm _

/-- C3.  After each completed z-order operation the zIndex values of the
resulting store are exactly 0, ..., N-1 (as a multiset: no duplicates, no
gaps), where N is the size of the resulting store: relative moves and
absolute moves renumber and keep this shape for any selection, and fusing
renumbers the merged store. -/
theorem c3_zindex_contiguous :
    (∀ (store toMove : List Layer) (d : Direction), toMove ≠ [] →
      ((moveLayers store toMove ⟨some d, none⟩).map (fun l => l.zIndex)).Perm
        ((List.range (moveLayers store toMove ⟨some d, none⟩).length).map (fun n : ℕ => (n : ℤ))))
    ∧ (∀ (store toMove : List Layer) (t : ℕ), toMove ≠ [] →
      ((moveLayers store toMove ⟨none, some t⟩).map (fun l => l.zIndex)).Perm
        ((List.range (moveLayers store toMove ⟨none, some t⟩).length).map (fun n : ℕ => (n : ℤ))))
    ∧ (∀ (store selected : List Layer) (cossin : ℚ → ℚ × ℚ) (newId imgTok : ℕ),
      fuseGuardOk selected cossin →
      (fuseLayers store selected cossin newId imgTok).map (fun l => l.zIndex)
        = (List.range (fuseLayers store selected cossin newId imgTok).length).map
            (fun n : ℕ => (n : ℤ))) := by
  refine ⟨?_, ?_, ?_⟩
  · intro store toMove d hne
    have heq : moveLayers store toMove ⟨some d, none⟩ = moveByDirection store toMove d := by
      unfold moveLayers
      rw [if_neg (by simpa using hne)]
    rw [heq]
    exact perm_renumberAsc_sort _
  · intro store toMove t hne
    have heq : moveLayers store toMove ⟨none, some t⟩ = moveToIndex store toMove t := by
      unfold moveLayers
      rw [if_neg (by simpa using hne)]
    rw [heq]
    exact perm_renumberDesc_sort _
  · intro store selected cossin newId imgTok hok
    obtain ⟨h2, hw1, hh1⟩ := hok
    simp only [fuseLayers]
    rw [if_neg (by omega)]
    rw [if_neg (by push_neg; exact ⟨by omega, by omega⟩)]
    rw [renumberAsc_map, renumberAsc_length, List.range_eq_range']

/-- A second layer above the base layer, for the z-order scenarios. -/
def upperLayer : Layer :=
  { baseLayer with id := 2, zIndex := 1 }

/-- C3 witness: the contiguity theorem applied to a concrete two-layer
store with the bottom layer moved up. -/
theorem c3_zindex_contiguous_witness :
    ([baseLayer] ≠ ([] : List Layer))
    ∧ ((moveLayers [baseLayer, upperLayer] [baseLayer]
          ⟨some Direction.up, none⟩).map (fun l => l.zIndex)).Perm
        ((List.range (moveLayers [baseLayer, upperLayer] [baseLayer]
          ⟨some Direction.up, none⟩).length).map (fun n : ℕ => (n : ℤ))) :=
  ⟨by decide, c3_zindex_contiguous.1 [baseLayer, upperLayer] [baseLayer] Direction.up
    (by decide)⟩

/-- A processed-image cache entry for one layer, holding the parsed parts
of its fingerprint key `id_blendArea_cropKey_width_height`: the blend area,
an abstract crop key, and the frame width and height. -/
structure CacheEntry where
  blend : ℤ
  crop : ℕ
  w : ℚ
  h : ℚ
  deriving DecidableEq, Repr

/-- The heuristic score of `CanvasLayers._drawLayer` (part_000 lines
2308-2335): +100 for a blend-area match, else minus the blend-area distance;
+200 for a crop-key match, else -150; +50 extra when the whole fingerprint
matches the current one. -/
def scoreEntry (cur e : CacheEntry) : ℤ :=
  (if e.blend = cur.blend then 100 else -|e.blend - cur.blend|) +
  (if e.crop = cur.crop then 200 else -150) +
  (if e = cur then 50 else 0)

/-- One step of the best-match accumulation: keep the candidate with the
strictly higher score (first maximal entry wins ties), starting from the
sentinel score -1. -/
def bmStep (cur : CacheEntry) (acc : ℤ × Option CacheEntry) (e : CacheEntry) :
    ℤ × Option CacheEntry :=
  if scoreEntry cur e > acc.1 then (scoreEntry cur e, some e) else acc

/-- The best-matching stale cache selection of `_drawLayer` during scaling
(part_000 lines 2294-2348), over the entries of the scaled layer in cache
iteration order. -/
def bestMatch (cur : CacheEntry) (entries : List CacheEntry) : Option CacheEntry :=
  (entries.foldl (bmStep cur) ((-1 : ℤ), (none : Option CacheEntry))).2

/-- Accumulation invariant of the best-match fold: the result either is the
start accumulator or holds an entry of the list with its score, the score
never decreases, and it dominates every scanned entry. -/
theorem bmStep_foldl_spec (cur : CacheEntry) :
    ∀ (entries : List CacheEntry) (acc : ℤ × Option CacheEntry),
      (entries.foldl (bmStep cur) acc = acc
        ∨ ∃ e ∈ entries, (entries.foldl (bmStep cur) acc).2 = some e
            ∧ (entries.foldl (bmStep cur) acc).1 = scoreEntry cur e)
      ∧ acc.1 ≤ (entries.foldl (bmStep cur) acc).1
      ∧ ∀ x ∈ entries, scoreEntry cur x ≤ (entries.foldl (bmStep cur) acc).1 := by
  intro entries
  induction entries with
  | nil => exact fun acc => ⟨Or.inl rfl, le_refl _, by simp⟩
  | cons e rest ih =>
      intro acc
      obtain ⟨h1, h2, h3⟩ := ih (bmStep cur acc e)
      have hstep : acc.1 ≤ (bmStep cur acc e).1 ∧ scoreEntry cur e ≤ (bmStep cur acc e).1 := by
        unfold bmStep
        split
        · constructor
          · exact le_of_lt (by assumption)
          · exact le_refl _
        · constructor
          · exact le_refl _
          · omega
      refine ⟨?_, le_trans hstep.1 h2, ?_⟩
      · rcases h1 with h1 | ⟨e2, he2, hse, hsc⟩
        · rw [List.foldl_cons, h1]
          unfold bmStep
          split
          · exact Or.inr ⟨e, List.mem_cons_self e rest, rfl, rfl⟩
          · exact Or.inl rfl
        · exact Or.inr ⟨e2, List.mem_cons_of_mem e he2, hse, hsc⟩
      · intro x hx
        rcases List.mem_cons.mp hx with hx | hx
        · subst hx
          exact le_trans hstep.2 h2
        · exact h3 x hx

/-- The fingerprint of the layer state used by the C9 scenarios. -/
def c9Cur : CacheEntry := { blend := 40, crop := 1, w := 100, h := 100 }

/-- A stale entry matching only the blend area of `c9Cur`. -/
def c9BlendMatch : CacheEntry := { blend := 40, crop := 2, w := 100, h := 100 }

/-- A stale entry matching only the crop key of `c9Cur`. -/
def c9CropMatch : CacheEntry := { blend := 0, crop := 1, w := 100, h := 100 }

/-- C9 counterexample.  The claim puts the blend-area match above the
crop-key match, but the source weights crop (+200) above blend (+100): the
entry matching only the crop key outscores the entry matching only the
blend area, and selection substitutes the crop-matching entry. -/
theorem c9_weight_counterexample :
    c9BlendMatch.blend = c9Cur.blend ∧ c9BlendMatch.crop ≠ c9Cur.crop
    ∧ c9CropMatch.crop = c9Cur.crop ∧ c9CropMatch.blend ≠ c9Cur.blend
    ∧ scoreEntry c9Cur c9BlendMatch < scoreEntry c9Cur c9CropMatch
    ∧ bestMatch c9Cur [c9BlendMatch, c9CropMatch] = some c9CropMatch := by
  decide

/-- C9 amended.  The ranking weights a crop-key match (+200) higher than a
blend-area match (+100), with a small +50 bonus for an exact fingerprint
match: for blend areas in the 0..100 range, an entry matching the crop key
always outscores an entry matching only the blend area; and the substituted
entry is one of the layer's entries with the maximal score. -/
theorem c9_score_and_selection :
    (∀ cur e1 e2 : CacheEntry,
      0 ≤ cur.blend → cur.blend ≤ 100 → 0 ≤ e1.blend → e1.blend ≤ 100 →
      e1.crop = cur.crop → e2.blend = cur.blend → e2.crop ≠ cur.crop →
      scoreEntry cur e2 < scoreEntry cur e1)
    ∧ (∀ (cur : CacheEntry) (entries : List CacheEntry) (e : CacheEntry),
      bestMatch cur entries = some e →
      e ∈ entries ∧ ∀ x ∈ entries, scoreEntry cur x ≤ scoreEntry cur e) := by
  constructor
  · intro cur e1 e2 hc0 hc1 he0 he1 hcrop hblend hnocrop
    have habs : |e1.blend - cur.blend| ≤ 100 := abs_le.mpr ⟨by omega, by omega⟩
    have habs0 : 0 ≤ |e1.blend - cur.blend| := abs_nonneg _
    have hne : e2 ≠ cur := fun h => hnocrop (by rw [h])
    unfold scoreEntry
    rw [if_pos hblend, if_neg hnocrop, if_neg hne, if_pos hcrop]
    split <;> split <;> omega
  · intro cur entries e hsome
    obtain ⟨h1, _, h3⟩ := bmStep_foldl_spec cur entries ((-1 : ℤ), none)
    unfold bestMatch at hsome
    rcases h1 with h1 | ⟨e2, he2, hse, hsc⟩
    · rw [h1] at hsome
      simp at hsome
    · rw [hse] at hsome
      obtain rfl : e2 = e := by simpa using hsome
      refine ⟨he2, fun x hx => ?_⟩
      rw [← hsc]
      exact h3 x hx

/-- C9 witness: the amended theorem applied at the concrete entries. -/
theorem c9_score_and_selection_witness :
    scoreEntry c9Cur c9BlendMatch < scoreEntry c9Cur c9CropMatch
    ∧ (c9CropMatch ∈ [c9BlendMatch, c9CropMatch]
      ∧ ∀ x ∈ [c9BlendMatch, c9CropMatch],
          scoreEntry c9Cur x ≤ scoreEntry c9Cur c9CropMatch) :=
  ⟨c9_score_and_selection.1 c9Cur c9CropMatch c9BlendMatch (by decide) (by decide)
      (by decide) (by decide) (by decide) (by decide) (by decide),
    c9_score_and_selection.2 c9Cur [c9BlendMatch, c9CropMatch] c9CropMatch (by decide)⟩

/-- The optional per-field overrides carried by the `layerProps` argument of
`addLayerWithImage`; the JS object spread applies each present field over
the freshly built layer record. -/
structure LayerProps where
  x : Option ℚ
  y : Option ℚ
  width : Option ℚ
  height : Option ℚ
  zIndex : Option ℤ
  deriving DecidableEq, Repr

/-- The JS spread `{ ...base, ...layerProps }` restricted to the modelled
fields. -/
def applyProps (l : Layer) (p : LayerProps) : Layer :=
  { l with
      x := p.x.getD l.x
      y := p.y.getD l.y
      width := p.width.getD l.width
      height := p.height.getD l.height
      zIndex := p.zIndex.getD l.zIndex }

/-- The highest zIndex among existing layers, -1 when the store is empty
(part_000 lines 1966-1969 and 2033-2036). -/
def maxZIndex (ls : List Layer) : ℤ :=
  match ls with
  | [] => -1
  | l :: rest => rest.foldl (fun m a => max m a.zIndex) l.zIndex

/-- Embedding of `CanvasLayers.addLayerWithImage` (part_000 lines
2001-2095): build a layer with zIndex one above the store maximum, apply the
caller-supplied property overrides on top (the JS spread comes after the
zIndex assignment), and push it.  Placement (`fit`, `mouse`, default) only
determines the frame fields, which are taken as parameters here. -/
def addLayerWithImage (store : List Layer) (props : LayerProps)
    (newId imgTok : ℕ) (finalX finalY finalW finalH origW origH : ℚ) : List Layer :=
  let layer : Layer :=
    { id := newId, image := imgTok, x := finalX, y := finalY, width := finalW,
      height := finalH, originalWidth := origW, originalHeight := origH,
      rotation := 0, flipH := false, flipV := false,
      zIndex := maxZIndex store + 1, blendMode := 0, opacity := 1, visible := true,
      cropMode := false, cropBounds := none, blendArea := 0 }
  store ++ [applyProps layer props]

/-- The paste loop of `pasteLayers`: each clipboard layer is cloned at the
paste offset with zIndex maxZ + 1 + position. -/
def pasteNew (offX offY : ℚ) (maxZ : ℤ) : ℕ → List Layer → List Layer
  | _, [] => []
  | i, cl :: rest =>
      { cl with x := cl.x + offX, y := cl.y + offY, zIndex := maxZ + 1 + (i : ℤ) }
        :: pasteNew offX offY maxZ (i + 1) rest

/-- Embedding of `CanvasLayers.pasteLayers` (part_000 lines 1946-1990): an
empty internal clipboard returns early, otherwise the clones are pushed on
top with consecutive zIndex values above the store maximum.  The paste
offset (mouse position minus clipboard center) is taken as parameters. -/
def pasteLayers (store clipboard : List Layer) (offX offY : ℚ) : List Layer :=
  if clipboard.length = 0 then store
  else store ++ pasteNew offX offY (maxZIndex store) 0 clipboard

theorem le_maxZIndex (ls : List Layer) : ∀ l ∈ ls, l.zIndex ≤ maxZIndex ls := by
  have key : ∀ (rest : List Layer) (b : ℤ),
      b ≤ rest.foldl (fun m a => max m a.zIndex) b
      ∧ ∀ a ∈ rest, a.zIndex ≤ rest.foldl (fun m a => max m a.zIndex) b := by
    intro rest
    induction rest with
    | nil => exact fun b => ⟨le_refl _, by simp⟩
    | cons a t ih =>
        intro b
        obtain ⟨ih1, ih2⟩ := ih (max b a.zIndex)
        refine ⟨le_trans (le_max_left _ _) ih1, ?_⟩
        intro x hx
        rcases List.mem_cons.mp hx with hx | hx
        · subst hx
          exact le_trans (le_max_right _ _) ih1
        · exact ih2 x hx
  intro l hl
  cases ls with
  | nil => cases hl
  | cons a rest =>
      rcases List.mem_cons.mp hl with hl | hl
      · subst hl
        exact (key rest l.zIndex).1
      · exact (key rest a.zIndex).2 l hl

theorem pasteNew_map (offX offY : ℚ) (maxZ : ℤ) :
    ∀ (i : ℕ) (cl : List Layer),
      (pasteNew offX offY maxZ i cl).map (fun l => l.zIndex)
        = (List.range' i cl.length).map (fun n : ℕ => maxZ + 1 + (n : ℤ)) := by
  intro i cl
  induction cl generalizing i with
  | nil => rfl
  | cons a rest ih =>
      simp only [pasteNew, List.map_cons, List.length_cons, List.range'_succ]
      exact congrArg _ (ih (i + 1))

/-- The zIndex override used by the C10 counterexample. -/
def c10Props : LayerProps :=
  { x := none, y := none, width := none, height := none, zIndex := some 0 }

/-- A property object with no overrides. -/
def c10NoProps : LayerProps :=
  { x := none, y := none, width := none, height := none, zIndex := none }

/-- C10 counterexample.  Because `...layerProps` is spread after the zIndex
assignment, a caller-supplied zIndex override wins: with one existing layer
at zIndex 0 (so the store maximum is 0) and layerProps containing zIndex 0,
the created layer also gets zIndex 0, which is not strictly greater than
every existing zIndex. -/
theorem c10_zindex_override_counterexample :
    maxZIndex [baseLayer] = 0
    ∧ ((addLayerWithImage [baseLayer] c10Props 9 9 0 0 100 100 100 100).map
        (fun l => l.zIndex)) = [0, 0] := by
  decide

/-- C10 amended.  When `layerProps` does not override zIndex,
`addLayerWithImage` appends one layer with zIndex maxZIndex + 1, strictly
above every existing layer; `pasteLayers` appends clones with consecutive
zIndex values maxZIndex + 1 + i in clipboard order, all strictly above every
existing layer; both leave the existing layers untouched (the result starts
with the original store). -/
theorem c10_new_layers_on_top :
    (∀ (store : List Layer) (props : LayerProps) (newId imgTok : ℕ)
        (fx fy fw fh ow oh : ℚ), props.zIndex = none →
      ∃ newL, addLayerWithImage store props newId imgTok fx fy fw fh ow oh
          = store ++ [newL]
        ∧ newL.zIndex = maxZIndex store + 1
        ∧ ∀ l ∈ store, l.zIndex < newL.zIndex)
    ∧ (∀ (store clipboard : List Layer) (offX offY : ℚ),
      ∃ pasted, pasteLayers store clipboard offX offY = store ++ pasted
        ∧ pasted.map (fun l => l.zIndex)
            = (List.range clipboard.length).map
                (fun n : ℕ => maxZIndex store + 1 + (n : ℤ))
        ∧ ∀ l ∈ store, ∀ p ∈ pasted, l.zIndex < p.zIndex) := by
  constructor
  · intro store props newId imgTok fx fy fw fh ow oh hz
    refine ⟨_, rfl, ?_, ?_⟩
    · simp [applyProps, hz]
    · intro l hl
      have h1 := le_maxZIndex store l hl
      have h2 : (applyProps
          { id := newId, image := imgTok, x := fx, y := fy, width := fw,
            height := fh, originalWidth := ow, originalHeight := oh,
            rotation := 0, flipH := false, flipV := false,
            zIndex := maxZIndex store + 1, blendMode := 0, opacity := 1,
            visible := true, cropMode := false, cropBounds := none,
            blendArea := 0 } props).zIndex = maxZIndex store + 1 := by
        simp [applyProps, hz]
      rw [h2]
      omega
  · intro store clipboard offX offY
    cases hcl : clipboard with
    | nil =>
        refine ⟨[], by simp [pasteLayers], by simp, by simp⟩
    | cons a rest =>
        refine ⟨pasteNew offX offY (maxZIndex store) 0 clipboard, ?_, ?_, ?_⟩
        · rw [hcl]
          simp [pasteLayers]
        · rw [pasteNew_map, List.range_eq_range', hcl]
        · intro l hl p hp
          have h1 := le_maxZIndex store l hl
          have h2 : p.zIndex ∈ (pasteNew offX offY (maxZIndex store) 0 clipboard).map
              (fun l => l.zIndex) := List.mem_map_of_mem _ hp
          rw [pasteNew_map] at h2
          obtain ⟨n, _, hn⟩ := List.mem_map.mp h2
          omega

/-- C10 witness: the amended theorem applied at a concrete store. -/
theorem c10_new_layers_on_top_witness :
    c10NoProps.zIndex = none
    ∧ (∃ newL, addLayerWithImage [baseLayer] c10NoProps 3 3 0 0 100 100 100 100
        = [baseLayer] ++ [newL]
      ∧ newL.zIndex = maxZIndex [baseLayer] + 1
      ∧ ∀ l ∈ [baseLayer], l.zIndex < newL.zIndex) :=
  ⟨by decide, c10_new_layers_on_top.1 [baseLayer] c10NoProps 3 3 0 0 100 100 100 100
    (by decide)⟩

/-- Pointer events of a crop-handle drag: press, a move that changes the
crop bounds (abstracted as a new fingerprint key), and release. -/
inductive DragEv where
  | down
  | move (k : ℕ)
  | up
  deriving DecidableEq, Repr

/-- Cache-pipeline state for one layer in crop mode with `blendArea > 0`:
the set of cached fingerprint keys, the pending debounce timer of
`scheduleProcessedImageCreation` (fire time and the key captured when it was
scheduled), the `layersTransformingCropBounds` membership flag, the times of
all `createProcessedImage` calls so far (most recent first), and the current
crop fingerprint key. -/
structure SimState where
  cache : List ℕ
  timer : Option (ℕ × ℕ)
  transforming : Bool
  creations : List ℕ
  curKey : ℕ
  deriving DecidableEq, Repr

/-- The debounce delay of the processed-image pipeline
(`PROCESSED_IMAGE_DEBOUNCE_DELAY = 1000`). -/
def debounceDelay : ℕ := 1000

/-- One `createProcessedImage` call at time t for the given key, caching the
result (part_000 lines 2658-2679 and the cache insertions at 2597 and 2766). -/
def createCall (t key : ℕ) (st : SimState) : SimState :=
  { st with creations := t :: st.creations, cache := key :: st.cache }

/-- Modelled from the spec: a synchronous render pass (CanvasRenderer is
not under src/; section 5 fixes rendering as synchronous).  Per layer it
reaches `_drawLayer`, whose `getProcessedImage` (part_000 lines 2541-2579)
returns the cached image when the current fingerprint is cached, and
otherwise calls `scheduleProcessedImageCreation` (lines 2584-2611), which
replaces any pending debounce timer for the layer with one firing
`debounceDelay` later, capturing the current key. -/
def renderStep (t : ℕ) (st : SimState) : SimState :=
  if st.cache.contains st.curKey then st
  else { st with timer := some (t + debounceDelay, st.curKey) }

/-- The body of `handleTransformEnd` for crop transforms (part_000 lines
2734-2798, delay 0): the layer stays flagged for live rendering, and the
`setTimeout 0` task creates and caches the processed image for the key
captured at mouse-up, clears the flag and triggers a render. -/
def executeTransform (t captured : ℕ) (st : SimState) : SimState :=
  renderStep t { createCall t captured st with transforming := false }

/-- Fire the pending debounce timer while it is due (the timer callback of
`scheduleProcessedImageCreation` creates the image unconditionally, caches
it under the captured key, deletes the timer and re-renders); the fuel
bounds the number of chained firings. -/
def fireDue : ℕ → ℕ → SimState → SimState
  | 0, _, st => st
  | fuel + 1, t, st =>
      match st.timer with
      | some (ft, k) =>
          if ft ≤ t then fireDue fuel t (renderStep ft (createCall ft k { st with timer := none }))
          else st
      | none => st

/-- Handling of one pointer event during a crop-handle drag.  `down` renders
once (`startLayerTransform`); `move` updates the crop bounds and renders
(`resizeLayerFromHandle`); `up` follows `handleMouseUp` (CanvasInteractions
lines 336-374): `handleCropBoundsTransformEnd` flags the layer and queues
the `setTimeout 0` creation for the current key, `renderAndSave` and the
trailing render each run a render pass, and then the queued task runs. -/
def handleDragEvent (t : ℕ) (st : SimState) : DragEv → SimState
  | .down => renderStep t st
  | .move k => renderStep t { st with curKey := k }
  | .up =>
      let captured := st.curKey
      let st1 := { st with transforming := true }
      let st2 := renderStep t (renderStep t st1)
      executeTransform t captured st2

/-- Drive a timestamped event trace: pending timers that are due fire before
the next event is handled. -/
def runDragEvents : SimState → List (ℕ × DragEv) → SimState
  | st, [] => st
  | st, (t, ev) :: rest => runDragEvents (handleDragEvent t (fireDue 4 t st) ev) rest

/-- After the last event, any still-pending debounce timer eventually
fires. -/
def flushTimer (st : SimState) : SimState :=
  match st.timer with
  | some (ft, k) => renderStep ft (createCall ft k { st with timer := none })
  | none => st

/-- Two crop-handle drags of a `blendArea = 40` layer, all renders within
the 1000 ms debounce quiet period: press at t=0, moves at 100 and 200,
release at 300; press again at 400, moves at 500 and 600, release at 700. -/
def c8Trace : List (ℕ × DragEv) :=
  [(0, DragEv.down), (100, DragEv.move 1), (200, DragEv.move 2), (300, DragEv.up),
   (400, DragEv.down), (500, DragEv.move 3), (600, DragEv.move 4), (700, DragEv.up)]

/-- Start state: empty cache, no pending timer, initial crop key 0. -/
def c8Start : SimState :=
  { cache := [], timer := none, transforming := false, creations := [], curKey := 0 }

/-- The pipeline state after the two drags and the trailing timer firing. -/
def c8Run : SimState := flushTimer (runDragEvents c8Start c8Trace)

/-- C8 counterexample.  The scenario produces three processed-image
creation calls, not exactly one: `handleTransformEnd` creates once per drag
end, and the debounce timer scheduled by the render passes at mouse-up is
never cancelled and fires a third, redundant creation. -/
theorem c8_creation_count_counterexample :
    c8Run.creations.length = 3 ∧ c8Run.creations.length ≠ 1 := by
  decide

/-- C8 amended.  The two crop-handle drags produce exactly three
cache-creation calls, all after drag ends and none during a drag: one
immediately after each mouse-up (times 300 and 700) and one when the
trailing debounce timer fires 1000 ms after the last cache-missing render
(time 1700); afterwards no timer is pending. -/
theorem c8_creation_schedule :
    c8Run.creations = [1700, 700, 300] ∧ c8Run.timer = none := by
  decide

end LayerForge
